import Mathlib

/-!
Verification development for the Legion operation pipeline and dependence
graph (header `src/unnamed/part_001`, i.e. `legion_operations.h`).

The repository snapshot contains only the declarations and documentation
comments of the operation classes; the implementing translation unit is not
part of the sources.  Where a definition below embeds one of those missing
method bodies, its doc comment starts with `Modelled from the spec:` and the
definition follows the specification's description of that method.  The
enumerations (`Operation::OpKind`, `SpeculativeOp::SpecState`) and all field
names are taken directly from the header.
-/

/-! ## Operation kinds (`Operation::OpKind`, header lines 39-64) -/

/-- The closed enumeration of operation kinds, transcribed from
`Operation::OpKind` in the header.  The C++ enum ends with the sentinel
`LAST_OP_KIND`, which is not an operation kind but the count of kinds
(it is used as the length of the `op_names` array); it is modelled below
as the constant `LAST_OP_KIND_count`. -/
inductive OpKind where
  | MAP_OP_KIND
  | COPY_OP_KIND
  | FENCE_OP_KIND
  | FRAME_OP_KIND
  | DELETION_OP_KIND
  | INTER_CLOSE_OP_KIND
  | POST_CLOSE_OP_KIND
  | ACQUIRE_OP_KIND
  | RELEASE_OP_KIND
  | DYNAMIC_COLLECTIVE_OP_KIND
  | FUTURE_PRED_OP_KIND
  | NOT_PRED_OP_KIND
  | AND_PRED_OP_KIND
  | OR_PRED_OP_KIND
  | MUST_EPOCH_OP_KIND
  | PENDING_PARTITION_OP_KIND
  | DEPENDENT_PARTITION_OP_KIND
  | FILL_OP_KIND
  | ATTACH_OP_KIND
  | DETACH_OP_KIND
  | TRACE_CAPTURE_OP_KIND
  | TRACE_COMPLETE_OP_KIND
  | TASK_OP_KIND
deriving DecidableEq, Repr

/-- The value of the sentinel enumerator `LAST_OP_KIND` in the C++ enum:
the 23 proper kinds occupy values 0..22, so the sentinel is 23. -/
def LAST_OP_KIND_count : Nat := 23

/-- All operation kinds, in the declaration order of the C++ enum. -/
def opKindList : List OpKind :=
  [ .MAP_OP_KIND, .COPY_OP_KIND, .FENCE_OP_KIND, .FRAME_OP_KIND,
    .DELETION_OP_KIND, .INTER_CLOSE_OP_KIND, .POST_CLOSE_OP_KIND,
    .ACQUIRE_OP_KIND, .RELEASE_OP_KIND, .DYNAMIC_COLLECTIVE_OP_KIND,
    .FUTURE_PRED_OP_KIND, .NOT_PRED_OP_KIND, .AND_PRED_OP_KIND,
    .OR_PRED_OP_KIND, .MUST_EPOCH_OP_KIND, .PENDING_PARTITION_OP_KIND,
    .DEPENDENT_PARTITION_OP_KIND, .FILL_OP_KIND, .ATTACH_OP_KIND,
    .DETACH_OP_KIND, .TRACE_CAPTURE_OP_KIND, .TRACE_COMPLETE_OP_KIND,
    .TASK_OP_KIND ]

/-- The `OPERATION_NAMES` table from the header (one logging name per kind;
the array is declared with `LAST_OP_KIND` entries). -/
def op_names : List String :=
  [ "Mapping", "Copy", "Fence", "Frame", "Deletion", "Inter Close",
    "Post Close", "Acquire", "Release", "Dynamic Collective",
    "Future Predicate", "Not Predicate", "And Predicate", "Or Predicate",
    "Must Epoch", "Pending Partition", "Dependent Partition", "Fill",
    "Attach", "Detach", "Trace Capture", "Trace Complete", "Task" ]

/-! ## Speculation states (`SpeculativeOp::SpecState`, header lines 424-430) -/

/-- The speculation sub-machine's state enumeration, transcribed from
`SpeculativeOp::SpecState` in the header. -/
inductive SpecState where
  | PENDING_MAP_STATE
  | SPECULATE_TRUE_STATE
  | SPECULATE_FALSE_STATE
  | RESOLVE_TRUE_STATE
  | RESOLVE_FALSE_STATE
deriving DecidableEq, Repr

/-- All speculation states, in the declaration order of the C++ enum. -/
def specStateList : List SpecState :=
  [ .PENDING_MAP_STATE, .SPECULATE_TRUE_STATE, .SPECULATE_FALSE_STATE,
    .RESOLVE_TRUE_STATE, .RESOLVE_FALSE_STATE ]

/-- Modelled from the spec: `SpeculativeOp::activate_speculative` is missing
from the sources; the spec says the PENDING_MAP state is "entered on
construction", so a freshly activated speculative operation starts there. -/
def SpeculativeOp.initial_state : SpecState := .PENDING_MAP_STATE

/-- Modelled from the spec: the state transition performed by
`SpeculativeOp::notify_predicate_value` (body missing from the sources).
"From either speculate state, a later notify_predicate_value causes a
transition to the matching RESOLVE_* state"; an operation parked in
PENDING_MAP waiting for its predicate resolves the same way; a notification
on an already resolved state changes nothing. -/
def SpeculativeOp.notify_predicate_value (s : SpecState) (value : Bool) :
    SpecState :=
  match s with
  | .SPECULATE_TRUE_STATE =>
      if value then .RESOLVE_TRUE_STATE else .RESOLVE_FALSE_STATE
  | .SPECULATE_FALSE_STATE =>
      if value then .RESOLVE_TRUE_STATE else .RESOLVE_FALSE_STATE
  | .PENDING_MAP_STATE =>
      if value then .RESOLVE_TRUE_STATE else .RESOLVE_FALSE_STATE
  | .RESOLVE_TRUE_STATE => .RESOLVE_TRUE_STATE
  | .RESOLVE_FALSE_STATE => .RESOLVE_FALSE_STATE

/-! ## Compound predicate operations (header lines 1020-1112)

`NotPredOp`, `AndPredOp` and `OrPredOp` are `Predicate::Impl`s that register
as `PredicateWaiter`s on their input predicates.  The header declares their
fields (`predicate_resolved`, `predicate_value`, and for the binary ones
`left_value`/`left_valid`/`right_value`/`right_valid`); the bodies of their
`notify_predicate_value` methods are missing from the sources and are
modelled from the spec's resolution rules. -/

/-- Resolution state of a `NotPredOp`: the `predicate_resolved` /
`predicate_value` fields it inherits from `Predicate::Impl`. -/
structure NotPredState where
  predicate_resolved : Bool
  predicate_value : Bool
deriving DecidableEq, Repr

/-- A `NotPredOp` before its input has resolved. -/
def NotPredOp.initial : NotPredState :=
  { predicate_resolved := false, predicate_value := false }

/-- Modelled from the spec: `NotPredOp::notify_predicate_value` (body
missing from the sources).  "Not resolves as soon as its input resolves",
with the negated value. -/
def NotPredOp.notify_predicate_value (s : NotPredState) (value : Bool) :
    NotPredState :=
  if s.predicate_resolved then s
  else { predicate_resolved := true, predicate_value := !value }

/-- Resolution state of an `AndPredOp` or `OrPredOp`: the inherited
`predicate_resolved`/`predicate_value` plus the per-input fields declared
in the header. -/
structure BinaryPredState where
  predicate_resolved : Bool
  predicate_value : Bool
  left_value : Bool
  left_valid : Bool
  right_value : Bool
  right_valid : Bool
deriving DecidableEq, Repr

/-- A binary predicate operation before either input has resolved. -/
def BinaryPred.initial : BinaryPredState :=
  { predicate_resolved := false, predicate_value := false,
    left_value := false, left_valid := false,
    right_value := false, right_valid := false }

/-- Record the delivered value of one input (`side = true` for the left
input, `false` for the right). -/
def BinaryPred.record (s : BinaryPredState) (side : Bool) (value : Bool) :
    BinaryPredState :=
  if side then { s with left_value := value, left_valid := true }
  else { s with right_value := value, right_valid := true }

/-- Modelled from the spec: `AndPredOp::notify_predicate_value` (body
missing from the sources).  "And resolves false on the first false,
otherwise when both resolve." -/
def AndPredOp.notify_predicate_value (s : BinaryPredState) (side : Bool)
    (value : Bool) : BinaryPredState :=
  if s.predicate_resolved then s
  else
    let s1 := BinaryPred.record s side value
    if value = false then
      { s1 with predicate_resolved := true, predicate_value := false }
    else if s1.left_valid && s1.right_valid then
      { s1 with predicate_resolved := true,
                predicate_value := s1.left_value && s1.right_value }
    else s1

/-- Modelled from the spec: `OrPredOp::notify_predicate_value` (body
missing from the sources).  "Or resolves true on the first true,
otherwise when both resolve." -/
def OrPredOp.notify_predicate_value (s : BinaryPredState) (side : Bool)
    (value : Bool) : BinaryPredState :=
  if s.predicate_resolved then s
  else
    let s1 := BinaryPred.record s side value
    if value = true then
      { s1 with predicate_resolved := true, predicate_value := true }
    else if s1.left_valid && s1.right_valid then
      { s1 with predicate_resolved := true,
                predicate_value := s1.left_value || s1.right_value }
    else s1

/-! ## Activation / deactivation round trip (header lines 113-116, 294-295)

`Operation::activate_operation` and `Operation::deactivate_operation` are
the base-class halves of the free-list recycling protocol.  Their bodies
are missing from the sources; the record below keeps the generation and the
four outstanding counters declared in the header. -/

/-- The generation counter and the outstanding counters of an `Operation`
(header fields `gen`, `outstanding_mapping_deps`,
`outstanding_speculation_deps`, `outstanding_commit_deps`,
`outstanding_mapping_references`). -/
structure OpCounters where
  gen : Nat
  outstanding_mapping_deps : Nat
  outstanding_speculation_deps : Nat
  outstanding_commit_deps : Nat
  outstanding_mapping_references : Nat
deriving DecidableEq, Repr

/-- A freshly constructed operation: the constructor zeroes the counters;
`g` is the initial generation. -/
def freshOpCounters (g : Nat) : OpCounters :=
  { gen := g, outstanding_mapping_deps := 0,
    outstanding_speculation_deps := 0, outstanding_commit_deps := 0,
    outstanding_mapping_references := 0 }

/-- Modelled from the spec: `Operation::activate_operation` (body missing
from the sources).  "activate — drawn from a free-list; counters cleared,
generation unchanged." -/
def Operation.activate_operation (s : OpCounters) : OpCounters :=
  { s with outstanding_mapping_deps := 0,
           outstanding_speculation_deps := 0,
           outstanding_commit_deps := 0,
           outstanding_mapping_references := 0 }

/-- Modelled from the spec: `Operation::deactivate_operation` (body missing
from the sources).  The generation is incremented exactly once per
lifetime, before the object is returned to its free-list; deactivation is
that return, so it performs the increment ("Activating and deactivating an
op N times must leave counters at zero and generation equal to its initial
value + N"). -/
def Operation.deactivate_operation (s : OpCounters) : OpCounters :=
  { s with gen := s.gen + 1 }

/-- One activate/deactivate recycling round trip. -/
def Operation.recycle_once (s : OpCounters) : OpCounters :=
  Operation.deactivate_operation (Operation.activate_operation s)

/-! ## The lifecycle state machine of a single operation generation

This transition system models one generation of an `Operation`'s life,
between its initialization into a parent context and its commit, as driven
concurrently by the analysis, mapping and execution workers (spec sections
4.1 and 4.2; the method bodies are missing from the sources).  The fields
are those declared in the header.  `outstanding_mapping_references` counts
one reference held by the parent context while the operation sits in the
context's dependence queue (`in_window`, "added to parent's outstanding
set") plus one reference per dependent peer (`peer_refs`); edges name peers
as `(unique id, generation)` pairs. -/

structure OpState where
  mapped : Bool
  executed : Bool
  resolved : Bool
  completed : Bool
  committed : Bool
  early_commit_request : Bool
  in_window : Bool
  peer_refs : Nat
  outstanding_mapping_deps : Nat
  outstanding_commit_deps : Nat
  incoming : List (Nat × Nat)
  outgoing : List (Nat × Nat)
deriving DecidableEq, Repr

/-- The operation's `outstanding_mapping_references` counter: the parent
context's reference while the registration window is open, plus the
references added by dependent peers. -/
def OpState.mrefs (s : OpState) : Nat :=
  s.peer_refs + (if s.in_window then 1 else 0)

/-- The state of an operation right after `initialize_operation`: all
lifecycle flags clear, no edges, and the parent context holding the
operation in its dependence queue. -/
def OpState.init : OpState :=
  { mapped := false, executed := false, resolved := false,
    completed := false, committed := false, early_commit_request := false,
    in_window := true, peer_refs := 0,
    outstanding_mapping_deps := 0, outstanding_commit_deps := 0,
    incoming := [], outgoing := [] }

/-- The observable lifecycle events of one operation. -/
inductive OpLabel where
  | addIncoming (peer pgen : Nat)
  | addOutgoing (peer pgen : Nat)
  | notifyMappingDep
  | notifyCommitDep
  | removeMappingRef
  | closeWindow
  | completeMapping
  | completeExecution
  | resolveSpeculation
  | requestEarlyCommit
  | triggerComplete
  | triggerCommit
deriving DecidableEq, Repr

/-- Modelled from the spec: the state changes of the `Operation` lifecycle
methods, whose bodies are missing from the sources (spec sections 4.1-4.2).

* `addIncoming` — this operation registers a dependence on a peer during
  its own dependence analysis (`register_dependence`, caller side): the
  edge joins `incoming` and both the outstanding mapping-dependence and
  commit-dependence counts rise.  Analysis precedes mapping, so this is
  only possible while the operation has not mapped ("Once mapped is true,
  incoming is frozen").
* `addOutgoing` — a later peer registers a dependence on this operation
  (`perform_registration`, target side): the edge joins `outgoing`, and the
  peer adds a mapping reference so this operation cannot commit while the
  peer still depends on it.  Registrations reach an operation only through
  the parent context's dependence queue, so the window must be open, and a
  committed operation accepts no new dependences.
* `notifyMappingDep` / `notifyCommitDep` — an upstream dependence is
  satisfied / an upstream peer commits, decrementing the matching counter.
* `removeMappingRef` — a dependent peer drops its mapping reference.
* `closeWindow` — the parent context removes the operation from its
  dependence queue, dropping the context's mapping reference.
* `completeMapping` — `complete_mapping` runs after `trigger_mapping`,
  which is invoked when `outstanding_mapping_deps == 0`; it sets `mapped`.
* `completeExecution` — `complete_execution` sets `executed`.
* `resolveSpeculation` — `resolve_speculation` sets `resolved`.
* `requestEarlyCommit` — `request_early_commit` records the request.
* `triggerComplete` — `trigger_complete` fires when
  `mapped ∧ executed ∧ resolved`, setting `completed`.
* `triggerCommit` — `trigger_commit` fires when `completed` and either all
  mapping references and commit dependences have drained or an early
  commit was requested; it sets `committed` and clears the edge sets. -/
inductive OpStep : OpLabel → OpState → OpState → Prop where
  | addIncoming (s : OpState) (peer pgen : Nat)
      (hm : s.mapped = false) :
      OpStep (.addIncoming peer pgen) s
        { s with incoming := (peer, pgen) :: s.incoming,
                 outstanding_mapping_deps := s.outstanding_mapping_deps + 1,
                 outstanding_commit_deps := s.outstanding_commit_deps + 1 }
  | addOutgoing (s : OpState) (peer pgen : Nat)
      (hw : s.in_window = true) (hc : s.committed = false) :
      OpStep (.addOutgoing peer pgen) s
        { s with outgoing := (peer, pgen) :: s.outgoing,
                 peer_refs := s.peer_refs + 1 }
  | notifyMappingDep (s : OpState)
      (h : 1 ≤ s.outstanding_mapping_deps) :
      OpStep .notifyMappingDep s
        { s with outstanding_mapping_deps := s.outstanding_mapping_deps - 1 }
  | notifyCommitDep (s : OpState)
      (h : 1 ≤ s.outstanding_commit_deps) :
      OpStep .notifyCommitDep s
        { s with outstanding_commit_deps := s.outstanding_commit_deps - 1 }
  | removeMappingRef (s : OpState)
      (h : 1 ≤ s.peer_refs) :
      OpStep .removeMappingRef s
        { s with peer_refs := s.peer_refs - 1 }
  | closeWindow (s : OpState)
      (hw : s.in_window = true) :
      OpStep .closeWindow s { s with in_window := false }
  | completeMapping (s : OpState)
      (hm : s.mapped = false) (hd : s.outstanding_mapping_deps = 0) :
      OpStep .completeMapping s { s with mapped := true }
  | completeExecution (s : OpState)
      (he : s.executed = false) :
      OpStep .completeExecution s { s with executed := true }
  | resolveSpeculation (s : OpState)
      (hr : s.resolved = false) :
      OpStep .resolveSpeculation s { s with resolved := true }
  | requestEarlyCommit (s : OpState) :
      OpStep .requestEarlyCommit s { s with early_commit_request := true }
  | triggerComplete (s : OpState)
      (hm : s.mapped = true) (he : s.executed = true)
      (hr : s.resolved = true) (hc : s.completed = false) :
      OpStep .triggerComplete s { s with completed := true }
  | triggerCommit (s : OpState)
      (hc : s.completed = true) (hn : s.committed = false)
      (hg : s.early_commit_request = true ∨
            (s.mrefs = 0 ∧ s.outstanding_commit_deps = 0)) :
      OpStep .triggerCommit s
        { s with committed := true, incoming := [], outgoing := [] }

/-- States reachable from the initialized operation. -/
inductive OpReachable : OpState → Prop where
  | init : OpReachable OpState.init
  | step {s t : OpState} {l : OpLabel} (hr : OpReachable s)
      (hs : OpStep l s t) : OpReachable t

/-- Zero or more lifecycle steps, from anywhere. -/
inductive OpSteps : OpState → OpState → Prop where
  | refl (s : OpState) : OpSteps s s
  | tail {s t u : OpState} {l : OpLabel} (h : OpSteps s t)
      (hs : OpStep l t u) : OpSteps s u

/-! ## Lifecycle invariants and helper lemmas -/

/-- The flag implications maintained by the lifecycle: a completed
operation has mapped, executed and resolved, and a committed operation has
completed. -/
def OpState.FlagInv (s : OpState) : Prop :=
  (s.completed = true → s.mapped = true ∧ s.executed = true ∧
    s.resolved = true)
  ∧ (s.committed = true → s.completed = true)

theorem opStep_flagInv {l : OpLabel} {s t : OpState} (h : OpStep l s t)
    (hi : s.FlagInv) : t.FlagInv := by
  obtain ⟨h1, h2⟩ := hi
  have h3 : s.committed = true → s.mapped = true ∧ s.executed = true ∧
      s.resolved = true := fun hc => h1 (h2 hc)
  cases h <;> simp_all [OpState.FlagInv]

theorem opReachable_flagInv {s : OpState} (h : OpReachable s) :
    s.FlagInv := by
  induction h with
  | init => simp [OpState.FlagInv, OpState.init]
  | step hr hs ih => exact opStep_flagInv hs ih

theorem opStep_mapped_incoming {l : OpLabel} {s t : OpState}
    (h : OpStep l s t) (hm : s.mapped = true) :
    t.mapped = true ∧ t.incoming ⊆ s.incoming := by
  cases h <;> simp_all

theorem opSteps_mapped_incoming {s t : OpState} (h : OpSteps s t)
    (hm : s.mapped = true) : t.mapped = true ∧ t.incoming ⊆ s.incoming := by
  induction h with
  | refl => exact ⟨hm, List.Subset.refl _⟩
  | tail h hs ih =>
      obtain ⟨h1, h2⟩ := ih
      obtain ⟨h3, h4⟩ := opStep_mapped_incoming hs h1
      exact ⟨h3, List.Subset.trans h4 h2⟩

theorem opStep_mrefs_outgoing {l : OpLabel} {s t : OpState}
    (h : OpStep l s t) (h0 : s.mrefs = 0) :
    t.mrefs = 0 ∧ t.outgoing ⊆ s.outgoing := by
  cases h <;> simp_all [OpState.mrefs]

theorem opSteps_mrefs_outgoing {s t : OpState} (h : OpSteps s t)
    (h0 : s.mrefs = 0) : t.mrefs = 0 ∧ t.outgoing ⊆ s.outgoing := by
  induction h with
  | refl => exact ⟨h0, List.Subset.refl _⟩
  | tail h hs ih =>
      obtain ⟨h1, h2⟩ := ih
      obtain ⟨h3, h4⟩ := opStep_mrefs_outgoing hs h1
      exact ⟨h3, List.Subset.trans h4 h2⟩

/-- A sample lifecycle run used to exhibit reachable states: the operation
receives one downstream edge, maps, executes, resolves its speculation,
requests an early commit and completes. -/
def opSample : OpState :=
  { mapped := true, executed := true, resolved := true, completed := true,
    committed := false, early_commit_request := true, in_window := true,
    peer_refs := 1, outstanding_mapping_deps := 0,
    outstanding_commit_deps := 0, incoming := [], outgoing := [(7, 0)] }

theorem opSample_reachable : OpReachable opSample := by
  have h0 := OpReachable.init
  have h1 := h0.step (OpStep.addOutgoing OpState.init 7 0 rfl rfl)
  have h2 := h1.step (OpStep.completeMapping _ rfl rfl)
  have h3 := h2.step (OpStep.completeExecution _ rfl)
  have h4 := h3.step (OpStep.resolveSpeculation _ rfl)
  have h5 := h4.step (OpStep.requestEarlyCommit _)
  have h6 := h5.step (OpStep.triggerComplete _ rfl rfl rfl rfl)
  exact h6

/-! ## Claim theorems for the lifecycle -/

/-- Claim C1: for an operation on which `request_early_commit()` has not
been called, `trigger_commit` fires only in a state where the `completed`
flag is set, `outstanding_mapping_references` is zero and
`outstanding_commit_deps` is zero; and if `request_early_commit()` was
called, the commit may fire earlier — exhibited by a reachable state in
which the commit fires while mapping references are still outstanding. -/
theorem C1_trigger_commit_guard :
    (∀ s t : OpState, OpStep .triggerCommit s t →
      s.early_commit_request = false →
      s.completed = true ∧ s.mrefs = 0 ∧ s.outstanding_commit_deps = 0)
    ∧ (∃ s t : OpState, OpReachable s ∧ OpStep .triggerCommit s t ∧
        s.early_commit_request = true ∧ s.mrefs ≠ 0) := by
  constructor
  · intro s t h he
    cases h with
    | triggerCommit s hc hn hg =>
        rcases hg with hg | hg
        · rw [he] at hg; cases hg
        · exact ⟨hc, hg.1, hg.2⟩
  · exact ⟨opSample, _, opSample_reachable,
      OpStep.triggerCommit opSample rfl rfl (Or.inl rfl), rfl, by decide⟩

/-- A completed operation with its window closed and all references and
commit dependences drained. -/
def opDrained : OpState :=
  { mapped := true, executed := true, resolved := true,
    completed := true, committed := false, early_commit_request := false,
    in_window := false, peer_refs := 0, outstanding_mapping_deps := 0,
    outstanding_commit_deps := 0, incoming := [], outgoing := [] }

/-- Witness for C1: the guard inversion applied to a concrete commit step
on an operation that has completed with no outstanding references. -/
theorem C1_trigger_commit_guard_witness :
    opDrained.completed = true ∧ opDrained.mrefs = 0 ∧
    opDrained.outstanding_commit_deps = 0 :=
  C1_trigger_commit_guard.1 _ _
    (OpStep.triggerCommit opDrained rfl rfl (Or.inr (by decide))) rfl

/-- Claim C2: in every reachable state, a completed operation has mapped,
executed and resolved; a committed operation has completed (so committed
implies completed implies mapped, executed and resolved); and
`trigger_complete` fires only in a state where mapped, executed and
resolved all hold. -/
theorem C2_completed_implies_flags :
    (∀ s : OpState, OpReachable s → s.completed = true →
      s.mapped = true ∧ s.executed = true ∧ s.resolved = true)
    ∧ (∀ s : OpState, OpReachable s → s.committed = true →
      s.completed = true)
    ∧ (∀ s t : OpState, OpStep .triggerComplete s t →
      s.mapped = true ∧ s.executed = true ∧ s.resolved = true) := by
  refine ⟨fun s hr hc => (opReachable_flagInv hr).1 hc,
          fun s hr hc => (opReachable_flagInv hr).2 hc,
          fun s t h => ?_⟩
  cases h with
  | triggerComplete s hm he hrr hc => exact ⟨hm, he, hrr⟩

/-- Witness for C2: the invariant applied to the sample reachable state in
which the operation has completed. -/
theorem C2_completed_implies_flags_witness :
    opSample.mapped = true ∧ opSample.executed = true ∧
    opSample.resolved = true :=
  C2_completed_implies_flags.1 opSample opSample_reachable rfl

/-- Claim C7: once an operation's `mapped` flag is set, no later lifecycle
step ever adds an entry to its `incoming` edge map, and once its
`outstanding_mapping_references` counter is zero, no later lifecycle step
ever adds an entry to its `outgoing` edge map (each later state's edge
list is contained in the earlier one). -/
theorem C7_edge_sets_frozen :
    (∀ s t : OpState, s.mapped = true → OpSteps s t →
      t.incoming ⊆ s.incoming)
    ∧ (∀ s t : OpState, s.mrefs = 0 → OpSteps s t →
      t.outgoing ⊆ s.outgoing) :=
  ⟨fun _ _ hm h => (opSteps_mapped_incoming h hm).2,
   fun _ _ h0 h => (opSteps_mrefs_outgoing h h0).2⟩

/-- A freshly deactivated-window state carrying one outgoing edge and no
references. -/
def opFrozen : OpState :=
  { mapped := false, executed := false, resolved := false,
    completed := false, committed := false, early_commit_request := false,
    in_window := false, peer_refs := 0, outstanding_mapping_deps := 0,
    outstanding_commit_deps := 0, incoming := [], outgoing := [(3, 0)] }

/-- Witness for C7: applied to the sample mapped state followed by its
commit step, and to a window-closed state with no references. -/
theorem C7_edge_sets_frozen_witness :
    ({ opSample with
       committed := true, incoming := [], outgoing := [] }).incoming ⊆
      opSample.incoming
    ∧ opFrozen.outgoing ⊆ opFrozen.outgoing :=
  ⟨C7_edge_sets_frozen.1 opSample _ rfl
    ((OpSteps.refl opSample).tail
      (OpStep.triggerCommit opSample rfl rfl (Or.inl rfl))),
   C7_edge_sets_frozen.2 opFrozen _ (by decide) (OpSteps.refl _)⟩

/-! ## Claim theorems for the enumerations, predicates and recycling -/

/-- Claim C8: the set of operation kinds is closed and is exactly the 23
kinds listed in `Operation::OpKind`; every value of the kind type (hence
every result of a `get_operation_kind` override, whose return type is
`OpKind`) is a member of this list, the list repeats no kind, and its
length is the sentinel value `LAST_OP_KIND`, so the enumeration contains
no other kinds (the `op_names` table likewise has one name per kind). -/
theorem C8_op_kinds_closed :
    (∀ k : OpKind, k ∈ opKindList) ∧ opKindList.Nodup
    ∧ opKindList.length = LAST_OP_KIND_count
    ∧ op_names.length = LAST_OP_KIND_count := by
  refine ⟨fun k => ?_, by decide, rfl, rfl⟩
  cases k <;> simp [opKindList]

/-- Claim C5: a `SpeculativeOp`'s speculative state ranges over exactly the
five values of `SpecState`; it starts in `PENDING_MAP_STATE`; and from
either speculate state, `notify_predicate_value` moves it to the resolve
state matching the delivered predicate value. -/
theorem C5_spec_state_machine :
    (∀ s : SpecState, s ∈ specStateList) ∧ specStateList.Nodup
    ∧ specStateList.length = 5
    ∧ SpeculativeOp.initial_state = SpecState.PENDING_MAP_STATE
    ∧ (∀ v : Bool,
        SpeculativeOp.notify_predicate_value .SPECULATE_TRUE_STATE v =
          (if v then .RESOLVE_TRUE_STATE else .RESOLVE_FALSE_STATE)
        ∧ SpeculativeOp.notify_predicate_value .SPECULATE_FALSE_STATE v =
          (if v then .RESOLVE_TRUE_STATE else .RESOLVE_FALSE_STATE)) := by
  refine ⟨fun s => ?_, by decide, rfl, rfl, by decide⟩
  cases s <;> simp [specStateList]

/-- Claim C6: `NotPredOp` resolves as soon as its input resolves, with the
negated value; `AndPredOp` resolves false as soon as either input resolves
false, does not resolve on a single true input, and when both inputs have
resolved carries their conjunction; `OrPredOp` resolves true as soon as
either input resolves true, does not resolve on a single false input, and
when both inputs have resolved carries their disjunction. -/
theorem C6_compound_predicates :
    (∀ v : Bool,
      (NotPredOp.notify_predicate_value NotPredOp.initial v).predicate_resolved
        = true
      ∧ (NotPredOp.notify_predicate_value NotPredOp.initial v).predicate_value
        = !v)
    ∧ (∀ side : Bool,
      (AndPredOp.notify_predicate_value BinaryPred.initial side
        false).predicate_resolved = true
      ∧ (AndPredOp.notify_predicate_value BinaryPred.initial side
        false).predicate_value = false
      ∧ (AndPredOp.notify_predicate_value BinaryPred.initial side
        true).predicate_resolved = false)
    ∧ (∀ u v : Bool,
      (AndPredOp.notify_predicate_value
        (AndPredOp.notify_predicate_value BinaryPred.initial true u)
        false v).predicate_resolved = true
      ∧ (AndPredOp.notify_predicate_value
        (AndPredOp.notify_predicate_value BinaryPred.initial true u)
        false v).predicate_value = (u && v))
    ∧ (∀ side : Bool,
      (OrPredOp.notify_predicate_value BinaryPred.initial side
        true).predicate_resolved = true
      ∧ (OrPredOp.notify_predicate_value BinaryPred.initial side
        true).predicate_value = true
      ∧ (OrPredOp.notify_predicate_value BinaryPred.initial side
        false).predicate_resolved = false)
    ∧ (∀ u v : Bool,
      (OrPredOp.notify_predicate_value
        (OrPredOp.notify_predicate_value BinaryPred.initial true u)
        false v).predicate_resolved = true
      ∧ (OrPredOp.notify_predicate_value
        (OrPredOp.notify_predicate_value BinaryPred.initial true u)
        false v).predicate_value = (u || v)) := by
  decide

/-- Claim C9: performing `activate_operation` followed by
`deactivate_operation` N times, starting from the freshly constructed
operation, leaves every outstanding counter at zero and leaves the
generation at its initial value plus N. -/
theorem C9_activate_deactivate_round_trip :
    ∀ (N g : Nat),
      (Operation.recycle_once^[N]
        (freshOpCounters g)).outstanding_mapping_deps = 0
      ∧ (Operation.recycle_once^[N]
        (freshOpCounters g)).outstanding_speculation_deps = 0
      ∧ (Operation.recycle_once^[N]
        (freshOpCounters g)).outstanding_commit_deps = 0
      ∧ (Operation.recycle_once^[N]
        (freshOpCounters g)).outstanding_mapping_references = 0
      ∧ (Operation.recycle_once^[N] (freshOpCounters g)).gen = g + N := by
  intro N g
  induction N with
  | zero => simp [freshOpCounters]
  | succ n ih =>
      rw [Function.iterate_succ_apply']
      simp [Operation.recycle_once, Operation.deactivate_operation,
        Operation.activate_operation, ih.2.2.2.2]
      omega

/-! ## Dependence registration (`register_dependence`, header lines 236-261)

The functional model of one registration between two operations.  An
operation is identified to its peers by a `(unique id, generation)` pair;
the record keeps the fields of `Operation` that registration touches. -/

structure RegOp where
  gen : Nat
  committed : Bool
  incoming : List (Nat × Nat)
  outgoing : List (Nat × Nat)
  outstanding_mapping_deps : Nat
  outstanding_commit_deps : Nat
  outstanding_mapping_references : Nat
deriving DecidableEq, Repr

/-- Whether the target operation has already committed the generation a
stored edge refers to: either its generation counter has moved past that
generation (a commit bumps the generation), or it is still at that
generation but has committed out of order (header comment on the
`committed` flag). -/
def RegOp.committedFor (target : RegOp) (target_gen : Nat) : Prop :=
  target_gen < target.gen ∨
    (target_gen = target.gen ∧ target.committed = true)

instance (target : RegOp) (g : Nat) : Decidable (target.committedFor g) := by
  unfold RegOp.committedFor; infer_instance

/-- Modelled from the spec: `Operation::perform_registration` (body missing
from the sources).  If the target still carries the expected generation and
has not committed, the edge is recorded on both sides — `(target, gen)`
into the caller's `incoming`, `(caller, gen)` into the target's `outgoing`
— the caller's outstanding mapping and commit dependence counts rise, and
the target gains a mapping reference so it cannot commit while the caller
depends on it; the call reports `true` (the caller must later be
notified).  Otherwise nothing changes and the call reports `false`.
The result is `(registered, caller, target)`. -/
def Operation.perform_registration (selfId : Nat) (self : RegOp)
    (targetId : Nat) (target : RegOp) (target_gen : Nat) :
    Bool × RegOp × RegOp :=
  if target.gen == target_gen && !target.committed then
    ( true
    , { self with
        incoming := (targetId, target_gen) :: self.incoming,
        outstanding_mapping_deps := self.outstanding_mapping_deps + 1,
        outstanding_commit_deps := self.outstanding_commit_deps + 1 }
    , { target with
        outgoing := (selfId, self.gen) :: target.outgoing,
        outstanding_mapping_references :=
          target.outstanding_mapping_references + 1 } )
  else (false, self, target)

/-- Modelled from the spec: `Operation::register_dependence` (body missing
from the sources).  Self-edges are rejected; otherwise the registration is
attempted through `perform_registration`, and the call returns `true`
exactly when no dependence was registered because the target has already
committed, so the caller may prune the edge from its local list.
The result is `(pruned, caller, target)`. -/
def Operation.register_dependence (selfId : Nat) (self : RegOp)
    (targetId : Nat) (target : RegOp) (target_gen : Nat) :
    Bool × RegOp × RegOp :=
  if selfId == targetId then (false, self, target)
  else
    let r := Operation.perform_registration selfId self targetId target
      target_gen
    (!r.1, r.2.1, r.2.2)

/-- Claim C3: when the target's current generation differs from
`target_gen`, `register_dependence` registers no edge — both operations are
returned unchanged, so neither edge set nor any counter moves — and the
call returns true; in general (for distinct operations queried at a
generation the target has actually reached) the call returns true exactly
when the target has already committed that generation. -/
theorem C3_register_dependence :
    (∀ (selfId : Nat) (self : RegOp) (targetId : Nat) (target : RegOp)
      (target_gen : Nat), selfId ≠ targetId → target.gen ≠ target_gen →
      Operation.register_dependence selfId self targetId target target_gen
        = (true, self, target))
    ∧ (∀ (selfId : Nat) (self : RegOp) (targetId : Nat) (target : RegOp)
      (target_gen : Nat), selfId ≠ targetId → target_gen ≤ target.gen →
      ((Operation.register_dependence selfId self targetId target
        target_gen).1 = true ↔ target.committedFor target_gen)) := by
  constructor
  · intro selfId self targetId target target_gen hne hgen
    simp [Operation.register_dependence, Operation.perform_registration,
      hne, hgen]
  · intro selfId self targetId target target_gen hne hle
    simp only [Operation.register_dependence, Operation.perform_registration,
      beq_iff_eq, if_neg (by simpa using hne)]
    rcases Nat.lt_or_ge target_gen target.gen with hlt | hge
    · have hgen : target.gen ≠ target_gen := by omega
      simp [RegOp.committedFor, hgen, hlt]
    · have heq : target.gen = target_gen := by omega
      cases hc : target.committed <;>
        simp [RegOp.committedFor, heq, hc]

/-- Witness for C3: a concrete stale-generation registration (target at
generation 2 queried with generation 1) is a no-op returning true, and the
return value matches `committedFor`. -/
theorem C3_register_dependence_witness :
    Operation.register_dependence 0
      { gen := 0, committed := false, incoming := [], outgoing := [],
        outstanding_mapping_deps := 0, outstanding_commit_deps := 0,
        outstanding_mapping_references := 0 } 1
      { gen := 2, committed := false, incoming := [], outgoing := [],
        outstanding_mapping_deps := 0, outstanding_commit_deps := 0,
        outstanding_mapping_references := 0 } 1
      = (true,
        { gen := 0, committed := false, incoming := [], outgoing := [],
          outstanding_mapping_deps := 0, outstanding_commit_deps := 0,
          outstanding_mapping_references := 0 },
        { gen := 2, committed := false, incoming := [], outgoing := [],
          outstanding_mapping_deps := 0, outstanding_commit_deps := 0,
          outstanding_mapping_references := 0 })
    ∧ ((Operation.register_dependence 0
      { gen := 0, committed := false, incoming := [], outgoing := [],
        outstanding_mapping_deps := 0, outstanding_commit_deps := 0,
        outstanding_mapping_references := 0 } 1
      { gen := 2, committed := false, incoming := [], outgoing := [],
        outstanding_mapping_deps := 0, outstanding_commit_deps := 0,
        outstanding_mapping_references := 0 } 1).1 = true ↔
      RegOp.committedFor
        { gen := 2, committed := false, incoming := [], outgoing := [],
          outstanding_mapping_deps := 0, outstanding_commit_deps := 0,
          outstanding_mapping_references := 0 } 1) :=
  ⟨C3_register_dependence.1 0 _ 1 _ 1 (by decide) (by decide),
   C3_register_dependence.2 0 _ 1 _ 1 (by decide) (by decide)⟩

/-! ## Generation versioning and `is_operation_committed`
(header lines 262-266)

A small history-tracking model of one operation's commit/recycle cycle:
the generation counter, the `committed` flag, and (as history) the list of
generations this operation has committed.  An operation reaches its
free-list only through commit (spec section 4.1 step 8), and recycling
advances the generation. -/

structure GenOp where
  gen : Nat
  committed : Bool
deriving DecidableEq, Repr

/-- Modelled from the spec: `Operation::is_operation_committed` (body
missing from the sources).  The header documents it as imprecise — "may
return false when the operation has committed; however, the converse will
never occur" — and a generation strictly below the current one can only
have been left behind by a commit, so the test is a generation
comparison. -/
def Operation.is_operation_committed (s : GenOp) (g : Nat) : Bool :=
  decide (g < s.gen)

/-- Reachable commit/recycle histories: `GenReach s tr` holds when the
operation can be in state `s` with `tr` the list of generations it has
committed.  A commit marks the current generation committed and records
it; recycling a committed operation returns it to the free-list and bumps
the generation. -/
inductive GenReach : GenOp → List Nat → Prop where
  | init : GenReach { gen := 0, committed := false } []
  | commit_operation {s : GenOp} {tr : List Nat} (hr : GenReach s tr)
      (h : s.committed = false) :
      GenReach { gen := s.gen, committed := true } (s.gen :: tr)
  | recycle {s : GenOp} {tr : List Nat} (hr : GenReach s tr)
      (h : s.committed = true) :
      GenReach { gen := s.gen + 1, committed := false } tr

theorem genReach_inv {s : GenOp} {tr : List Nat} (h : GenReach s tr) :
    (∀ g, g < s.gen → g ∈ tr) ∧ (s.committed = true → s.gen ∈ tr) := by
  induction h with
  | init => simp
  | @commit_operation s tr hr hc ih =>
      exact ⟨fun g hg => List.mem_cons_of_mem _ (ih.1 g hg),
             fun _ => List.mem_cons_self _ _⟩
  | @recycle s tr hr hc ih =>
      refine ⟨fun g hg => ?_, fun hfalse => by simp at hfalse⟩
      simp only at hg
      rcases Nat.lt_or_ge g s.gen with h1 | h1
      · exact ih.1 g h1
      · have hEq : g = s.gen := by omega
        exact hEq ▸ ih.2 hc

/-- Claim C10: `is_operation_committed(gen)` is one-sided — whenever it
returns true for a generation, that generation really was committed; and
it may return false even though the operation has committed, exhibited by
a reachable state whose current generation is committed but not yet
recycled. -/
theorem C10_is_operation_committed_sound :
    (∀ (s : GenOp) (tr : List Nat) (g : Nat), GenReach s tr →
      Operation.is_operation_committed s g = true → g ∈ tr)
    ∧ (∃ (s : GenOp) (tr : List Nat) (g : Nat), GenReach s tr ∧ g ∈ tr ∧
      Operation.is_operation_committed s g = false) := by
  constructor
  · intro s tr g hr hc
    exact (genReach_inv hr).1 g (by simpa [Operation.is_operation_committed]
      using hc)
  · exact ⟨{ gen := 0, committed := true }, [0], 0,
      GenReach.commit_operation GenReach.init rfl, by simp, by decide⟩

/-- Witness for C10: the soundness direction applied to the state reached
by committing generation 0 and recycling, queried at generation 0. -/
theorem C10_is_operation_committed_sound_witness : 0 ∈ [(0 : Nat)] :=
  C10_is_operation_committed_sound.1 { gen := 1, committed := false } [0] 0
    (GenReach.recycle (GenReach.commit_operation GenReach.init rfl) rfl)
    (by decide)

/-! ## Trace capture and replay (spec sections 3 and 4.4)

The trace subsystem (`LegionTrace`, `TraceCaptureOp`, `TraceCompleteOp`)
is declared in the header but its implementation is missing from the
sources; the model below follows the spec's description.  Operations are
identified by their unique ids, listed in issue order; a dependence edge
produced by live analysis names the producing (`src`) and consuming
(`dst`) operations and the validated region index of the producer
(`none` encodes the C++ sentinel −1). -/

structure DependenceEdge where
  src : Nat
  dst : Nat
  region : Option Nat
deriving DecidableEq, Repr

/-- The trace state from the spec's data model: the sequence of recorded
operations, the positional dependences (for each recorded operation, the
`(predecessor_index, validated_region_index_or_none)` pairs), and the
`fixed` / `tracing` mode flags.  The spec's `op_map` reverse lookup is
`List.indexOf` on `operations`. -/
structure LegionTrace where
  operations : List Nat
  dependences : List (List (Nat × Option Nat))
  fixed : Bool
  tracing : Bool
deriving DecidableEq, Repr

/-- Modelled from the spec: a completed capture pass.  Every operation
registered during capture is appended to `operations`, and every edge
produced by dependence analysis is stored positionally — under the
consumer's index, as the producer's index paired with the region index.
Finalisation (the `TraceCaptureOp`) flips the trace to fixed. -/
def LegionTrace.capture (ops : List Nat) (edges : List DependenceEdge) :
    LegionTrace :=
  { operations := ops
  , dependences := (List.range ops.length).map (fun j =>
      (edges.filter (fun e => ops.indexOf e.dst == j)).map
        (fun e => (ops.indexOf e.src, e.region)))
  , fixed := true
  , tracing := false }

/-- Modelled from the spec: `register_dependences`, the replay of a fixed
trace over the identical operation sequence.  For each position in the
trace, the stored positional dependences are walked and the edges are
issued directly against the operations at the stored positions, skipping
live analysis. -/
def LegionTrace.register_dependences (t : LegionTrace) :
    List DependenceEdge :=
  (List.range t.operations.length).flatMap (fun j =>
    (t.dependences.getD j []).map (fun p =>
      { src := t.operations.getD p.1 0, dst := t.operations.getD j 0,
        region := p.2 }))

theorem getD_map_range {α : Type} (f : Nat → α) (d : α) {j n : Nat}
    (h : j < n) : ((List.range n).map f).getD j d = f j := by
  rw [List.getD_eq_getElem _ _ (by simpa using h)]
  simp

theorem getD_indexOf_self {l : List Nat} {a : Nat} (h : a ∈ l) :
    l.getD (l.indexOf a) 0 = a := by
  rw [List.getD_eq_getElem _ _ (List.indexOf_lt_length.2 h)]
  exact List.getElem_indexOf _

/-- Claim C4: replaying a captured trace over the identical sequence of
operations registers exactly the set of dependence edges that capture
recorded — every edge recorded during capture is re-issued during replay,
and no additional edges appear. -/
theorem C4_trace_replay_equals_capture :
    ∀ (ops : List Nat) (edges : List DependenceEdge),
      (∀ e ∈ edges, e.src ∈ ops ∧ e.dst ∈ ops) →
      ∀ e : DependenceEdge,
        e ∈ (LegionTrace.capture ops edges).register_dependences ↔
          e ∈ edges := by
  intro ops edges hend e
  unfold LegionTrace.register_dependences LegionTrace.capture
  simp only [List.mem_flatMap, List.mem_range]
  constructor
  · rintro ⟨j, hj, hme⟩
    rw [getD_map_range _ _ hj] at hme
    simp only [List.mem_map, List.mem_filter, beq_iff_eq] at hme
    obtain ⟨p, ⟨e', ⟨he'm, he'j⟩, hpe'⟩, hep⟩ := hme
    obtain ⟨hsrc, hdst⟩ := hend e' he'm
    subst hpe'
    subst he'j
    have h1 : ops.getD (ops.indexOf e'.src) 0 = e'.src :=
      getD_indexOf_self hsrc
    have h2 : ops.getD (ops.indexOf e'.dst) 0 = e'.dst :=
      getD_indexOf_self hdst
    rw [← hep, h1, h2]
    simpa using he'm
  · intro hme
    obtain ⟨hsrc, hdst⟩ := hend e hme
    refine ⟨ops.indexOf e.dst, List.indexOf_lt_length.2 hdst, ?_⟩
    rw [getD_map_range _ _ (List.indexOf_lt_length.2 hdst)]
    simp only [List.mem_map, List.mem_filter, beq_iff_eq]
    refine ⟨(ops.indexOf e.src, e.region), ⟨e, ⟨hme, rfl⟩, rfl⟩, ?_⟩
    rw [getD_indexOf_self hsrc, getD_indexOf_self hdst]

/-- Witness for C4: a two-operation trace with the single edge A→B is
replayed to exactly that edge set. -/
theorem C4_trace_replay_equals_capture_witness :
    ({ src := 10, dst := 11, region := some 0 } : DependenceEdge) ∈
      (LegionTrace.capture [10, 11]
        [{ src := 10, dst := 11, region := some 0 }]).register_dependences
    ↔ ({ src := 10, dst := 11, region := some 0 } : DependenceEdge) ∈
      [({ src := 10, dst := 11, region := some 0 } : DependenceEdge)] :=
  C4_trace_replay_equals_capture [10, 11]
    [{ src := 10, dst := 11, region := some 0 }]
    (by decide) { src := 10, dst := 11, region := some 0 }
